import Mathlib

/-!
Shallow embedding of the TCX-to-GPX conversion core of `app.py`
(functions `convert_tcx_to_gpx` and `get_points`), together with proofs
of the specification's claims about it.

External library calls are modelled by their outcomes:
`xml.etree.ElementTree.fromstring` either raises `ET.ParseError` (with a
message) or yields a tree whose `findall('.//ns:Trackpoint')` result is a
list of trackpoint records in document order; the Python parsers `float`,
`int` and `datetime.datetime.fromisoformat` applied to a present field's
text either raise `ValueError` or produce a value.  Timestamps are
modelled as integers (seconds), coordinates as rationals, heart rates as
integers; no claim depends on the numeric representation beyond equality
and subtraction of timestamps.
-/

/-- Outcome of applying an external Python parser (`float`, `int`, or
`datetime.datetime.fromisoformat`) to the text of a field that is present
in the document: the text is either rejected (the parser raises
`ValueError`) or parsed to a value. -/
inductive FieldText (α : Type) where
  | malformed
  | value (v : α)
deriving DecidableEq

/-- One trackpoint record as seen by the loop body of
`convert_tcx_to_gpx` (app.py lines 167-187): the four `find` calls yield,
for each sub-field, either nothing (`None`) or a present field's text,
abstracted by its parse outcome. -/
structure TrackpointRec where
  time : Option (FieldText Int)
  lat : Option (FieldText Rat)
  lon : Option (FieldText Rat)
  hr : Option (FieldText Int)
deriving DecidableEq

/-- gpxpy.gpx.GPXTrackPoint restricted to the fields the program sets. -/
structure GPXTrackPoint where
  latitude : Rat
  longitude : Rat
deriving DecidableEq

/-- gpxpy.gpx.GPXTrackSegment: an ordered point sequence. -/
structure GPXTrackSegment where
  points : List GPXTrackPoint
deriving DecidableEq

/-- gpxpy.gpx.GPXTrack: an ordered sequence of segments. -/
structure GPXTrack where
  segments : List GPXTrackSegment
deriving DecidableEq

/-- gpxpy.gpx.GPX: the track container. -/
structure GPX where
  tracks : List GPXTrack
deriving DecidableEq

/-- The distinguishable failures raised by `convert_tcx_to_gpx` (all are
`ValueError` in Python, distinguished by provenance and message):
the wrapped parse failure of app.py line 153, the empty-track failure of
line 190, and a `ValueError` escaping from `float`/`int`/`fromisoformat`
on a present field's text (lines 174, 181-182, 187). -/
inductive ConvError where
  | parseError (msg : String)
  | noGpsData
  | fieldFormatError
deriving DecidableEq

/-- The mutable state of the extraction loop (app.py lines 158-165):
the single segment's point list, the `heart_rates` list, and the
`start_time`/`end_time` variables. -/
structure LoopState where
  points : List GPXTrackPoint
  heart_rates : List Int
  start_time : Option Int
  end_time : Option Int
deriving DecidableEq

/-- app.py lines 173-177: `if time is not None:` parse the text with
`fromisoformat` (a `ValueError` aborts the conversion), set `start_time`
on first occurrence, always overwrite `end_time`. -/
def stepTime (st : LoopState) (tp : TrackpointRec) : Except ConvError LoopState :=
  match tp.time with
  | none => .ok st
  | some .malformed => .error .fieldFormatError
  | some (.value current_time) =>
      .ok { st with
            start_time := match st.start_time with
                          | none => some current_time
                          | some s => some s,
            end_time := some current_time }

/-- app.py lines 179-184: `if lat is not None and lon is not None:` build
the point from `float(lat.text)` then `float(lon.text)` (either raising
`ValueError` aborts the conversion) and append it. -/
def stepPos (st : LoopState) (tp : TrackpointRec) : Except ConvError LoopState :=
  match tp.lat, tp.lon with
  | some la, some lo =>
      match la with
      | .malformed => .error .fieldFormatError
      | .value latitude =>
          match lo with
          | .malformed => .error .fieldFormatError
          | .value longitude =>
              .ok { st with points := st.points ++ [⟨latitude, longitude⟩] }
  | _, _ => .ok st

/-- app.py lines 186-187: `if hr is not None:` append `int(hr.text)`
(a `ValueError` aborts the conversion). -/
def stepHr (st : LoopState) (tp : TrackpointRec) : Except ConvError LoopState :=
  match tp.hr with
  | none => .ok st
  | some .malformed => .error .fieldFormatError
  | some (.value v) => .ok { st with heart_rates := st.heart_rates ++ [v] }

/-- One iteration of the loop body (app.py lines 167-187): the three
`if` blocks run in order; a raised `ValueError` propagates immediately. -/
def processTrackpoint (st : LoopState) (tp : TrackpointRec) : Except ConvError LoopState :=
  match stepTime st tp with
  | .error e => .error e
  | .ok st1 =>
      match stepPos st1 tp with
      | .error e => .error e
      | .ok st2 => stepHr st2 tp

/-- The `for trackpoint in tcx_root.findall(...)` loop (app.py line 167):
fold the loop body over the records in document order; an exception
aborts the remaining iterations. -/
def runLoop : LoopState → List TrackpointRec → Except ConvError LoopState
  | st, [] => .ok st
  | st, tp :: tps =>
      match processTrackpoint st tp with
      | .error e => .error e
      | .ok st1 => runLoop st1 tps

/-- The conversion result tuple `(gpx, heart_rates, start_time, duration)`
returned at app.py line 193. -/
structure ConvResult where
  gpx : GPX
  heart_rates : List Int
  start_time : Option Int
  duration : Int
deriving DecidableEq

/-- The loop's initial state (app.py lines 158-165): empty segment,
empty `heart_rates`, `start_time = end_time = None`. -/
def initState : LoopState :=
  { points := [], heart_rates := [], start_time := none, end_time := none }

/-- app.py line 192: `end_time - start_time if start_time and end_time
else datetime.timedelta()` — both `datetime` objects are truthy, so the
condition is both variables being set. -/
def durOf (s e : Option Int) : Int :=
  match s, e with
  | some s0, some e0 => e0 - s0
  | _, _ => 0

/-- app.py lines 155-193 after a successful document parse: run the loop
over the trackpoint records, fail with the no-GPS-points `ValueError` if
the segment is empty (lines 189-190), compute the duration (line 192),
and return the tuple.  The program builds exactly one track with one
segment (lines 155-159). -/
def assemble (tps : List TrackpointRec) : Except ConvError ConvResult :=
  match runLoop initState tps with
  | .error e => .error e
  | .ok st =>
      if st.points = [] then .error .noGpsData
      else
        .ok { gpx := { tracks := [{ segments := [{ points := st.points }] }] },
              heart_rates := st.heart_rates,
              start_time := st.start_time,
              duration := durOf st.start_time st.end_time }

/-- Outcome of `ET.fromstring` followed by `findall('.//ns:Trackpoint')`
(external library, modelled by its outcome): either a parse failure with
the `ET.ParseError` message, or the trackpoint records in document
order. -/
inductive ParsedDoc where
  | failure (msg : String)
  | trackpoints (tps : List TrackpointRec)
deriving DecidableEq

/-- A raw upload: its text (used for the diagnostic prefix
`tcx_content[:100]`) together with the outcome of parsing it. -/
structure TcxContent where
  text : String
  doc : ParsedDoc
deriving DecidableEq

/-- app.py lines 146-193, `convert_tcx_to_gpx`: wrap a document parse
failure in a `ValueError` carrying the parser's message and the first
100 characters of the input (lines 150-153), otherwise proceed to the
extraction loop and assembly. -/
def convert_tcx_to_gpx (c : TcxContent) : Except ConvError ConvResult :=
  match c.doc with
  | .failure e =>
      .error (.parseError ("Unable to parse TCX data. Error: " ++ e ++
        ". Data starts with: " ++ c.text.take 100))
  | .trackpoints tps => assemble tps

/-- app.py lines 195-201, `get_points`: nested loops appending the
`(latitude, longitude)` pair of every point of every segment of every
track. -/
def get_points (g : GPX) : List (Rat × Rat) :=
  g.tracks.foldl
    (fun acc track => track.segments.foldl
      (fun acc seg => seg.points.foldl
        (fun acc p => acc ++ [(p.latitude, p.longitude)]) acc) acc) []

/-- A present time field whose text `fromisoformat` rejects (app.py
line 174 would raise `ValueError`). -/
def timeFailure (tp : TrackpointRec) : Bool :=
  match tp.time with
  | some .malformed => true
  | _ => false

/-- Whether a `FieldText` is rejected by its parser. -/
def FieldText.isMalformed {α : Type} : FieldText α → Bool
  | .malformed => true
  | .value _ => false

/-- Both position children present and at least one rejected by `float`
(app.py lines 181-182 would raise `ValueError`; with at most one child
present no parse is attempted). -/
def posFailure (tp : TrackpointRec) : Bool :=
  match tp.lat, tp.lon with
  | some la, some lo => la.isMalformed || lo.isMalformed
  | _, _ => false

/-- A present heart-rate field whose text `int` rejects (app.py line 187
would raise `ValueError`). -/
def hrFailure (tp : TrackpointRec) : Bool :=
  match tp.hr with
  | some .malformed => true
  | _ => false

/-- The record makes the loop body raise `ValueError`: some field whose
parse is actually attempted is rejected. -/
def hasAttemptedFailure (tp : TrackpointRec) : Bool :=
  timeFailure tp || posFailure tp || hrFailure tp

/-- Both position children present and parsable. -/
def hasValidPosition (tp : TrackpointRec) : Bool :=
  match tp.lat, tp.lon with
  | some (.value _), some (.value _) => true
  | _, _ => false

/-- A present, parsable heart-rate field. -/
def hasParsableHr (tp : TrackpointRec) : Bool :=
  match tp.hr with
  | some (.value _) => true
  | _ => false

/-- The record's contribution to the timestamp stream: its parsed time
if present and parsable, nothing otherwise. -/
def timeContrib (tp : TrackpointRec) : List Int :=
  match tp.time with
  | some (.value v) => [v]
  | _ => []

/-- The record's contribution to the point sequence: one point when both
children are present and parsable, nothing otherwise. -/
def posContrib (tp : TrackpointRec) : List GPXTrackPoint :=
  match tp.lat, tp.lon with
  | some (.value la), some (.value lo) => [⟨la, lo⟩]
  | _, _ => []

/-- The record's contribution to the heart-rate sequence. -/
def hrContrib (tp : TrackpointRec) : List Int :=
  match tp.hr with
  | some (.value v) => [v]
  | _ => []

/-- All parsed timestamps of the document, in document order. -/
def docTimes (tps : List TrackpointRec) : List Int :=
  (tps.map timeContrib).flatten

/-- All points of the document, in document order. -/
def docPoints (tps : List TrackpointRec) : List GPXTrackPoint :=
  (tps.map posContrib).flatten

/-- All heart rates of the document, in document order. -/
def docHrs (tps : List TrackpointRec) : List Int :=
  (tps.map hrContrib).flatten

/-- Effect of a timestamp stream on the `start_time` variable: set on
first occurrence, kept thereafter. -/
def updStart (s : Option Int) (l : List Int) : Option Int :=
  l.foldl (fun acc v => match acc with | none => some v | some s0 => some s0) s

/-- Effect of a timestamp stream on the `end_time` variable: each seen
value overwrites it unconditionally. -/
def updEnd (e : Option Int) (l : List Int) : Option Int :=
  l.foldl (fun _ v => some v) e

lemma stepTime_wf (st : LoopState) (tp : TrackpointRec) (h : timeFailure tp = false) :
    stepTime st tp = .ok { st with
      start_time := updStart st.start_time (timeContrib tp),
      end_time := updEnd st.end_time (timeContrib tp) } := by
  rcases htp : tp.time with _ | (_ | v)
  · simp [stepTime, timeContrib, htp, updStart, updEnd]
  · simp [timeFailure, htp] at h
  · simp [stepTime, timeContrib, htp, updStart, updEnd]

lemma stepPos_wf (st : LoopState) (tp : TrackpointRec) (h : posFailure tp = false) :
    stepPos st tp = .ok { st with points := st.points ++ posContrib tp } := by
  rcases hla : tp.lat with _ | (_ | la) <;> rcases hlo : tp.lon with _ | (_ | lo) <;>
    simp_all [stepPos, posContrib, posFailure, FieldText.isMalformed]

lemma stepHr_wf (st : LoopState) (tp : TrackpointRec) (h : hrFailure tp = false) :
    stepHr st tp = .ok { st with heart_rates := st.heart_rates ++ hrContrib tp } := by
  rcases hh : tp.hr with _ | (_ | v)
  · simp [stepHr, hrContrib, hh]
  · simp [hrFailure, hh] at h
  · simp [stepHr, hrContrib, hh]

lemma stepTime_fail (st : LoopState) (tp : TrackpointRec) (h : timeFailure tp = true) :
    stepTime st tp = .error .fieldFormatError := by
  rcases htp : tp.time with _ | (_ | v) <;> simp_all [stepTime, timeFailure, htp]

lemma stepPos_fail (st : LoopState) (tp : TrackpointRec) (h : posFailure tp = true) :
    stepPos st tp = .error .fieldFormatError := by
  rcases hla : tp.lat with _ | (_ | la) <;> rcases hlo : tp.lon with _ | (_ | lo) <;>
    simp_all [stepPos, posFailure, FieldText.isMalformed]

lemma stepHr_fail (st : LoopState) (tp : TrackpointRec) (h : hrFailure tp = true) :
    stepHr st tp = .error .fieldFormatError := by
  rcases hh : tp.hr with _ | (_ | v) <;> simp_all [stepHr, hrFailure, hh]

lemma processTrackpoint_wf (st : LoopState) (tp : TrackpointRec)
    (h : hasAttemptedFailure tp = false) :
    processTrackpoint st tp = .ok
      { points := st.points ++ posContrib tp,
        heart_rates := st.heart_rates ++ hrContrib tp,
        start_time := updStart st.start_time (timeContrib tp),
        end_time := updEnd st.end_time (timeContrib tp) } := by
  simp only [hasAttemptedFailure, Bool.or_eq_false_iff] at h
  obtain ⟨⟨h1, h2⟩, h3⟩ := h
  simp only [processTrackpoint, stepTime_wf _ _ h1, stepPos_wf _ _ h2, stepHr_wf _ _ h3]

lemma processTrackpoint_fail (st : LoopState) (tp : TrackpointRec)
    (h : hasAttemptedFailure tp = true) :
    processTrackpoint st tp = .error .fieldFormatError := by
  cases h1 : timeFailure tp with
  | true => simp only [processTrackpoint, stepTime_fail _ _ h1]
  | false =>
    cases h2 : posFailure tp with
    | true => simp only [processTrackpoint, stepTime_wf _ _ h1, stepPos_fail _ _ h2]
    | false =>
      have h3 : hrFailure tp = true := by
        simp [hasAttemptedFailure, h1, h2] at h; exact h
      simp only [processTrackpoint, stepTime_wf _ _ h1, stepPos_wf _ _ h2,
        stepHr_fail _ _ h3]

lemma processTrackpoint_ok_wf (st st' : LoopState) (tp : TrackpointRec)
    (h : processTrackpoint st tp = .ok st') : hasAttemptedFailure tp = false := by
  cases hb : hasAttemptedFailure tp
  · rfl
  · rw [processTrackpoint_fail st tp hb] at h
    cases h

lemma processTrackpoint_error (st : LoopState) (tp : TrackpointRec) (e : ConvError)
    (h : processTrackpoint st tp = .error e) : e = .fieldFormatError := by
  cases hb : hasAttemptedFailure tp
  · rw [processTrackpoint_wf st tp hb] at h
    cases h
  · rw [processTrackpoint_fail st tp hb] at h
    cases h
    rfl

lemma docTimes_cons (tp : TrackpointRec) (tps : List TrackpointRec) :
    docTimes (tp :: tps) = timeContrib tp ++ docTimes tps := by
  simp [docTimes]

lemma docPoints_cons (tp : TrackpointRec) (tps : List TrackpointRec) :
    docPoints (tp :: tps) = posContrib tp ++ docPoints tps := by
  simp [docPoints]

lemma docHrs_cons (tp : TrackpointRec) (tps : List TrackpointRec) :
    docHrs (tp :: tps) = hrContrib tp ++ docHrs tps := by
  simp [docHrs]

lemma updStart_append (s : Option Int) (l1 l2 : List Int) :
    updStart s (l1 ++ l2) = updStart (updStart s l1) l2 := by
  simp [updStart, List.foldl_append]

lemma updEnd_append (e : Option Int) (l1 l2 : List Int) :
    updEnd e (l1 ++ l2) = updEnd (updEnd e l1) l2 := by
  simp [updEnd, List.foldl_append]

lemma runLoop_wf : ∀ (tps : List TrackpointRec) (st : LoopState),
    (∀ tp ∈ tps, hasAttemptedFailure tp = false) →
    runLoop st tps = .ok
      { points := st.points ++ docPoints tps,
        heart_rates := st.heart_rates ++ docHrs tps,
        start_time := updStart st.start_time (docTimes tps),
        end_time := updEnd st.end_time (docTimes tps) }
  | [], st, _ => by
      simp [runLoop, docPoints, docHrs, docTimes, updStart, updEnd]
  | tp :: tps, st, h => by
      have h1 := h tp (by simp)
      have h2 : ∀ x ∈ tps, hasAttemptedFailure x = false := fun x hx => h x (by simp [hx])
      rw [runLoop, processTrackpoint_wf st tp h1]
      exact (runLoop_wf tps _ h2).trans (by
        simp [docTimes_cons, docPoints_cons, docHrs_cons, updStart_append, updEnd_append])

lemma runLoop_ok_wf : ∀ (tps : List TrackpointRec) (st st' : LoopState),
    runLoop st tps = .ok st' → ∀ tp ∈ tps, hasAttemptedFailure tp = false
  | [], _, _, _ => by simp
  | tp :: tps, st, st', h => by
      intro x hx
      rw [runLoop] at h
      cases hp : processTrackpoint st tp with
      | error e => rw [hp] at h; cases h
      | ok st1 =>
        rw [hp] at h
        rcases List.mem_cons.mp hx with rfl | hx2
        · exact processTrackpoint_ok_wf st st1 x hp
        · exact runLoop_ok_wf tps st1 st' h x hx2

lemma runLoop_error : ∀ (tps : List TrackpointRec) (st : LoopState) (e : ConvError),
    runLoop st tps = .error e → e = .fieldFormatError
  | [], _, _, h => by cases h
  | tp :: tps, st, e, h => by
      rw [runLoop] at h
      cases hp : processTrackpoint st tp with
      | error e1 =>
        rw [hp] at h
        cases h
        exact processTrackpoint_error st tp e hp
      | ok st1 =>
        rw [hp] at h
        exact runLoop_error tps st1 e h

/-- The result of a successful conversion, described from the document's
three streams. -/
def mkResult (tps : List TrackpointRec) : ConvResult :=
  { gpx := { tracks := [{ segments := [{ points := docPoints tps }] }] },
    heart_rates := docHrs tps,
    start_time := updStart none (docTimes tps),
    duration := durOf (updStart none (docTimes tps)) (updEnd none (docTimes tps)) }

lemma assemble_wf_pos (tps : List TrackpointRec)
    (h1 : ∀ tp ∈ tps, hasAttemptedFailure tp = false)
    (h2 : docPoints tps ≠ []) : assemble tps = .ok (mkResult tps) := by
  rw [assemble, runLoop_wf tps initState h1]
  simp [initState, mkResult, h2]

lemma assemble_wf_nopos (tps : List TrackpointRec)
    (h1 : ∀ tp ∈ tps, hasAttemptedFailure tp = false)
    (h2 : docPoints tps = []) : assemble tps = .error .noGpsData := by
  rw [assemble, runLoop_wf tps initState h1]
  simp [initState, h2]

lemma assemble_ok (tps : List TrackpointRec) (r : ConvResult)
    (h : assemble tps = .ok r) :
    (∀ tp ∈ tps, hasAttemptedFailure tp = false) ∧ docPoints tps ≠ [] ∧
      r = mkResult tps := by
  cases hr : runLoop initState tps with
  | error e =>
    rw [assemble, hr] at h
    cases h
  | ok st =>
    have hwf := runLoop_ok_wf tps initState st hr
    have heq := runLoop_wf tps initState hwf
    rw [hr] at heq
    cases heq
    refine ⟨hwf, ?_, ?_⟩
    · intro hnil
      rw [assemble, hr] at h
      simp [initState, hnil] at h
    · rw [assemble, hr] at h
      simp only [initState, List.nil_append] at h
      by_cases hnil : docPoints tps = []
      · simp [hnil] at h
      · simp [hnil] at h
        exact h.symm

lemma runLoop_fail_of_mem : ∀ (l1 : List TrackpointRec) (tp : TrackpointRec)
    (l2 : List TrackpointRec) (st : LoopState),
    hasAttemptedFailure tp = true →
    ∃ e, runLoop st (l1 ++ tp :: l2) = .error e
  | [], tp, l2, st, hfail =>
      ⟨.fieldFormatError, by
        rw [List.nil_append, runLoop, processTrackpoint_fail st tp hfail]⟩
  | q :: l1, tp, l2, st, hfail => by
      rw [List.cons_append, runLoop]
      cases hp : processTrackpoint st q with
      | error e => exact ⟨e, rfl⟩
      | ok st1 => exact runLoop_fail_of_mem l1 tp l2 st1 hfail

lemma assemble_fieldFormat_iff (tps : List TrackpointRec) :
    assemble tps = .error .fieldFormatError ↔
      ∃ tp ∈ tps, hasAttemptedFailure tp = true := by
  constructor
  · intro h
    by_contra hall
    push_neg at hall
    have hwf : ∀ tp ∈ tps, hasAttemptedFailure tp = false := by
      intro tp htp
      cases hb : hasAttemptedFailure tp
      · rfl
      · exact absurd hb (hall tp htp)
    by_cases hnil : docPoints tps = []
    · rw [assemble_wf_nopos tps hwf hnil] at h
      cases h
    · rw [assemble_wf_pos tps hwf hnil] at h
      cases h
  · rintro ⟨tp, htp, hfail⟩
    obtain ⟨l1, l2, rfl⟩ := List.append_of_mem htp
    obtain ⟨e, he⟩ := runLoop_fail_of_mem l1 tp l2 initState hfail
    have hfe := runLoop_error _ _ _ he
    subst hfe
    rw [assemble, he]

lemma updStart_some (s : Int) (l : List Int) : updStart (some s) l = some s := by
  induction l with
  | nil => rfl
  | cons a t ih => simpa [updStart, List.foldl_cons] using ih

lemma updStart_none_eq_head (l : List Int) : updStart none l = l.head? := by
  cases l with
  | nil => rfl
  | cons a t =>
    show updStart (some a) t = some a
    exact updStart_some a t

lemma updEnd_cons (e : Option Int) (a : Int) (t : List Int) :
    updEnd e (a :: t) = updEnd (some a) t := rfl

lemma updEnd_some_eq_getLast (a : Int) (t : List Int) :
    updEnd (some a) t = (a :: t).getLast? := by
  induction t generalizing a with
  | nil => rfl
  | cons b t2 ih =>
    rw [updEnd_cons, ih b, List.getLast?_cons_cons]

lemma updEnd_none_eq_getLast (l : List Int) (h : l ≠ []) :
    updEnd none l = l.getLast? := by
  cases l with
  | nil => exact absurd rfl h
  | cons a t => rw [updEnd_cons, updEnd_some_eq_getLast]

lemma posContrib_length (tp : TrackpointRec) :
    (posContrib tp).length = if hasValidPosition tp then 1 else 0 := by
  rcases hla : tp.lat with _ | (_ | la) <;> rcases hlo : tp.lon with _ | (_ | lo) <;>
    simp [posContrib, hasValidPosition, hla, hlo]

lemma hrContrib_length (tp : TrackpointRec) :
    (hrContrib tp).length = if hasParsableHr tp then 1 else 0 := by
  rcases hh : tp.hr with _ | (_ | v) <;> simp [hrContrib, hasParsableHr, hh]

lemma docPoints_length (tps : List TrackpointRec) :
    (docPoints tps).length = tps.countP (fun tp => hasValidPosition tp) := by
  induction tps with
  | nil => rfl
  | cons tp tps ih =>
    rw [docPoints_cons, List.length_append, ih, List.countP_cons]
    rw [posContrib_length]
    by_cases hv : hasValidPosition tp = true <;> simp [hv, Nat.add_comm]

lemma docHrs_length (tps : List TrackpointRec) :
    (docHrs tps).length = tps.countP (fun tp => hasParsableHr tp) := by
  induction tps with
  | nil => rfl
  | cons tp tps ih =>
    rw [docHrs_cons, List.length_append, ih, List.countP_cons]
    rw [hrContrib_length]
    by_cases hv : hasParsableHr tp = true <;> simp [hv, Nat.add_comm]

lemma docTimes_ne_nil (tps : List TrackpointRec)
    (h1 : ∀ tp ∈ tps, hasAttemptedFailure tp = false)
    (h2 : ∃ tp ∈ tps, tp.time.isSome) : docTimes tps ≠ [] := by
  obtain ⟨tp, htp, hsome⟩ := h2
  have hwf := h1 tp htp
  simp only [hasAttemptedFailure, Bool.or_eq_false_iff] at hwf
  rcases ht : tp.time with _ | (_ | v)
  · rw [ht] at hsome; cases hsome
  · have := hwf.1.1
    rw [timeFailure, ht] at this
    cases this
  · intro hnil
    have hmem : v ∈ docTimes tps := by
      rw [docTimes, List.mem_flatten]
      exact ⟨timeContrib tp, List.mem_map_of_mem timeContrib htp, by
        rw [timeContrib, ht]; simp⟩
    rw [hnil] at hmem
    cases hmem

lemma docTimes_nil_of_none (tps : List TrackpointRec)
    (h : ∀ tp ∈ tps, tp.time = none) : docTimes tps = [] := by
  induction tps with
  | nil => rfl
  | cons tp tps ih =>
    rw [docTimes_cons, timeContrib, h tp (by simp),
      ih (fun x hx => h x (by simp [hx]))]
    rfl

lemma getLast?_mem_of_eq (l : List Int) (y : Int) (h : l.getLast? = some y) : y ∈ l := by
  obtain ⟨hne, heq⟩ := List.mem_getLast?_eq_getLast (Option.mem_def.mpr h)
  rw [heq]
  exact List.getLast_mem hne

lemma head_le_getLast_of_sorted (l : List Int) (hs : l.Pairwise (· ≤ ·))
    (x y : Int) (hx : l.head? = some x) (hy : l.getLast? = some y) : x ≤ y := by
  cases l with
  | nil => cases hx
  | cons a t =>
    have hxa : x = a := by
      rw [List.head?_cons] at hx
      exact (Option.some.inj hx).symm
    have hmem : y ∈ a :: t := getLast?_mem_of_eq _ y hy
    rw [hxa]
    rcases List.mem_cons.mp hmem with h2 | hmem2
    · exact h2.ge
    · exact (List.pairwise_cons.mp hs).1 y hmem2

lemma foldl_points_eq (pts : List GPXTrackPoint) (acc : List (Rat × Rat)) :
    pts.foldl (fun a p => a ++ [(p.latitude, p.longitude)]) acc
      = acc ++ pts.map (fun p => (p.latitude, p.longitude)) := by
  induction pts generalizing acc with
  | nil => simp
  | cons p pts ih => simp [List.foldl_cons, ih]

lemma foldl_append_map {α γ : Type} (g : α → List γ) (l : List α) (acc : List γ) :
    l.foldl (fun a x => a ++ g x) acc = acc ++ (l.map g).flatten := by
  induction l generalizing acc with
  | nil => simp
  | cons x l ih => simp [List.foldl_cons, ih]

lemma flatten_map_singleton {α γ : Type} (f : α → γ) (l : List α) :
    (l.map (fun x => [f x])).flatten = l.map f := by
  induction l <;> simp [*]

lemma get_points_eq_flatten (g : GPX) :
    get_points g = (g.tracks.map (fun track => (track.segments.map (fun seg =>
      seg.points.map (fun p => (p.latitude, p.longitude)))).flatten)).flatten := by
  rw [get_points]
  simp only [foldl_points_eq, foldl_append_map, List.nil_append, flatten_map_singleton]

lemma durOf_some_some (s e : Int) : durOf (some s) (some e) = e - s := rfl

lemma durOf_none_fst (e : Option Int) : durOf none e = 0 := by
  cases e <;> rfl

lemma durOf_none_snd (s : Option Int) : durOf s none = 0 := by
  cases s <;> rfl

lemma posContrib_eq_nil (tp : TrackpointRec) (h : hasValidPosition tp = false) :
    posContrib tp = [] := by
  rcases hla : tp.lat with _ | (_ | la) <;> rcases hlo : tp.lon with _ | (_ | lo) <;>
    simp_all [posContrib, hasValidPosition, hla, hlo]

lemma docPoints_nil_of_no_valid (tps : List TrackpointRec)
    (h : ∀ tp ∈ tps, hasValidPosition tp = false) : docPoints tps = [] := by
  induction tps with
  | nil => rfl
  | cons tp tps ih =>
    rw [docPoints_cons, posContrib_eq_nil tp (h tp (by simp)),
      ih (fun x hx => h x (by simp [hx]))]
    rfl

lemma posContrib_ne_nil (tp : TrackpointRec) (h : hasValidPosition tp = true) :
    posContrib tp ≠ [] := by
  rcases hla : tp.lat with _ | (_ | la) <;> rcases hlo : tp.lon with _ | (_ | lo) <;>
    simp_all [posContrib, hasValidPosition, hla, hlo]

lemma docPoints_ne_nil (tps : List TrackpointRec)
    (h : ∃ tp ∈ tps, hasValidPosition tp = true) : docPoints tps ≠ [] := by
  obtain ⟨tp, htp, hv⟩ := h
  have hpc := posContrib_ne_nil tp hv
  intro hnil
  rcases hpl : posContrib tp with _ | ⟨p, rest⟩
  · exact hpc hpl
  · have hmem : p ∈ docPoints tps := by
      rw [docPoints, List.mem_flatten]
      exact ⟨posContrib tp, List.mem_map_of_mem posContrib htp, by rw [hpl]; simp⟩
    rw [hnil] at hmem
    cases hmem

lemma get_points_single (pts : List GPXTrackPoint) :
    get_points { tracks := [{ segments := [{ points := pts }] }] }
      = pts.map (fun p => (p.latitude, p.longitude)) := by
  rw [get_points_eq_flatten]
  simp

/-- The three-record scenario of the spec: (time, position, heart rate),
(time, heart rate, no position), (time, position, no heart rate). -/
def tpA1 : TrackpointRec :=
  { time := some (.value 100), lat := some (.value 1), lon := some (.value 2),
    hr := some (.value 100) }

/-- Second scenario record: time and heart rate, no position. -/
def tpA2 : TrackpointRec :=
  { time := some (.value 160), lat := none, lon := none, hr := some (.value 110) }

/-- Third scenario record: time and position, no heart rate. -/
def tpA3 : TrackpointRec :=
  { time := some (.value 220), lat := some (.value 3), lon := some (.value 4),
    hr := none }

/-- The scenario document. -/
def tpsA : List TrackpointRec := [tpA1, tpA2, tpA3]

/-- A document whose only record has time and heart rate but no position. -/
def tpsB : List TrackpointRec :=
  [{ time := some (.value 5), lat := none, lon := none, hr := some (.value 99) }]

/-- A record whose present heart-rate text the `int` parser rejects. -/
def tpC1 : TrackpointRec :=
  { time := some (.value 10), lat := some (.value 1), lon := some (.value 2),
    hr := some .malformed }

/-- A document containing a record with a present but unparsable field. -/
def tpsC : List TrackpointRec := [tpC1]

/-- A record with a latitude child (with unparsable text) but no
longitude child, plus time and heart rate. -/
def tpD : TrackpointRec :=
  { time := some (.value 7), lat := some .malformed, lon := none,
    hr := some (.value 88) }

/-- A one-record document with a position but no time field. -/
def tpsE : List TrackpointRec :=
  [{ time := none, lat := some (.value 1), lon := some (.value 2), hr := none }]

/-- A malformed upload: text that is not well-formed markup, with the
underlying parser's failure message. -/
def badContent : TcxContent :=
  { text := "<bad", doc := .failure "no element found: line 1, column 4" }

/-- C1: for every conversion that returns, if at least one trackpoint
record bears a time field then the returned duration equals the timestamp
of the last record in document order bearing a time field minus that of
the first such record (the last-seen value wins, not a chronological
maximum); if no record bears a time field the returned duration is
zero. -/
theorem duration_last_minus_first (tps : List TrackpointRec) (r : ConvResult)
    (h : assemble tps = .ok r) :
    ((∃ tp ∈ tps, tp.time.isSome) →
      docTimes tps ≠ [] ∧
      r.duration = (docTimes tps).getLast?.getD 0 - ((docTimes tps).head?).getD 0) ∧
    ((∀ tp ∈ tps, tp.time = none) → r.duration = 0) := by
  obtain ⟨hwf, hne, hr⟩ := assemble_ok tps r h
  subst hr
  constructor
  · intro hex
    have hdne := docTimes_ne_nil tps hwf hex
    refine ⟨hdne, ?_⟩
    show durOf (updStart none (docTimes tps)) (updEnd none (docTimes tps)) = _
    rw [updStart_none_eq_head, updEnd_none_eq_getLast _ hdne]
    cases hh : (docTimes tps).head? with
    | none => exact absurd (List.head?_eq_none_iff.mp hh) hdne
    | some s =>
      cases hl : (docTimes tps).getLast? with
      | none => exact absurd (List.getLast?_eq_none_iff.mp hl) hdne
      | some e => simp [durOf_some_some]
  · intro hnone
    have hnil := docTimes_nil_of_none tps hnone
    show durOf (updStart none (docTimes tps)) (updEnd none (docTimes tps)) = 0
    rw [hnil]
    rfl

theorem duration_last_minus_first_witness :
    (mkResult tpsA).duration
      = (docTimes tpsA).getLast?.getD 0 - ((docTimes tpsA).head?).getD 0 :=
  ((duration_last_minus_first tpsA (mkResult tpsA) rfl).1
    ⟨tpA1, by decide, by decide⟩).2

/-- C2: a well-formed input (every present field parsable) with zero
records carrying a valid position fails with the no-GPS-data error, no
matter how many records carry valid time or heart-rate fields, and no
result is returned. -/
theorem no_valid_position_noGpsData (tps : List TrackpointRec)
    (h1 : ∀ tp ∈ tps, hasAttemptedFailure tp = false)
    (h2 : ∀ tp ∈ tps, hasValidPosition tp = false) :
    assemble tps = .error .noGpsData ∧ ∀ r, assemble tps ≠ .ok r := by
  have hnil := docPoints_nil_of_no_valid tps h2
  have herr := assemble_wf_nopos tps h1 hnil
  refine ⟨herr, fun r hr => ?_⟩
  rw [herr] at hr
  cases hr

theorem no_valid_position_noGpsData_witness :
    assemble tpsB = .error .noGpsData :=
  (no_valid_position_noGpsData tpsB (by decide) (by decide)).1

/-- C3: a well-formed input with at least one record carrying a valid
position converts successfully; the flattened point sequence of the
returned track is exactly the documents' positions in document order, so
its length is the number of records with a parsable position. -/
theorem valid_position_success_point_count (tps : List TrackpointRec)
    (h1 : ∀ tp ∈ tps, hasAttemptedFailure tp = false)
    (h2 : ∃ tp ∈ tps, hasValidPosition tp = true) :
    ∃ r, assemble tps = .ok r ∧
      get_points r.gpx = (docPoints tps).map (fun p => (p.latitude, p.longitude)) ∧
      (get_points r.gpx).length = tps.countP (fun tp => hasValidPosition tp) := by
  have hne := docPoints_ne_nil tps h2
  refine ⟨mkResult tps, assemble_wf_pos tps h1 hne, ?_, ?_⟩
  · show get_points { tracks := [{ segments := [{ points := docPoints tps }] }] } = _
    rw [get_points_single]
  · show (get_points { tracks := [{ segments := [{ points := docPoints tps }] }] }).length = _
    rw [get_points_single, List.length_map, docPoints_length]

theorem valid_position_success_point_count_witness :
    ∃ r, assemble tpsA = .ok r ∧
      get_points r.gpx = (docPoints tpsA).map (fun p => (p.latitude, p.longitude)) ∧
      (get_points r.gpx).length = tpsA.countP (fun tp => hasValidPosition tp) :=
  valid_position_success_point_count tpsA (by decide) ⟨tpA1, by decide, by decide⟩


/-- C4: for every conversion that returns, the heart-rate series is
exactly the parsable heart-rate values in document order — one entry per
record with a parsable heart-rate value, independent of those records'
position or time fields. -/
theorem heart_rate_series_length (tps : List TrackpointRec) (r : ConvResult)
    (h : assemble tps = .ok r) :
    r.heart_rates = docHrs tps ∧
    r.heart_rates.length = tps.countP (fun tp => hasParsableHr tp) := by
  obtain ⟨hwf, hne, hr⟩ := assemble_ok tps r h
  subst hr
  exact ⟨rfl, by
    show (docHrs tps).length = _
    rw [docHrs_length]⟩

theorem heart_rate_series_length_witness :
    (mkResult tpsA).heart_rates = docHrs tpsA ∧
    (mkResult tpsA).heart_rates.length
      = tpsA.countP (fun tp => hasParsableHr tp) :=
  heart_rate_series_length tpsA (mkResult tpsA) rfl

/-- C5: per record the three extractions are independent — for any record
none of whose attempted parses fails, the loop body contributes each of
the three streams exactly according to that stream's own field, absence
of one never blocking the others — while the conversion fails with the
field-format error exactly when some record has a present field whose
parse is attempted and rejected. -/
theorem field_extraction_independence (tps : List TrackpointRec) :
    (∀ (st : LoopState) (tp : TrackpointRec), hasAttemptedFailure tp = false →
      processTrackpoint st tp = .ok
        { points := st.points ++ posContrib tp,
          heart_rates := st.heart_rates ++ hrContrib tp,
          start_time := updStart st.start_time (timeContrib tp),
          end_time := updEnd st.end_time (timeContrib tp) }) ∧
    (assemble tps = .error .fieldFormatError ↔
      ∃ tp ∈ tps, hasAttemptedFailure tp = true) :=
  ⟨processTrackpoint_wf, assemble_fieldFormat_iff tps⟩

theorem field_extraction_independence_witness :
    processTrackpoint initState tpA2 = .ok
      { points := initState.points ++ posContrib tpA2,
        heart_rates := initState.heart_rates ++ hrContrib tpA2,
        start_time := updStart initState.start_time (timeContrib tpA2),
        end_time := updEnd initState.end_time (timeContrib tpA2) } ∧
    assemble tpsC = .error .fieldFormatError :=
  ⟨(field_extraction_independence tpsC).1 initState tpA2 (by decide),
   (field_extraction_independence tpsC).2.mpr ⟨tpC1, by decide, by decide⟩⟩

/-- C6: an input whose text is not well-formed markup makes the
conversion fail with the wrapped parse error carrying the underlying
parser's message and the first 100 characters of the input, returning no
result; on well-formed input the conversion proceeds to the extraction
and assembly stage unchanged. -/
theorem parse_failure_wrapped_message (c : TcxContent) :
    (∀ m, c.doc = .failure m →
      convert_tcx_to_gpx c = .error (.parseError ("Unable to parse TCX data. Error: "
        ++ m ++ ". Data starts with: " ++ c.text.take 100)) ∧
      ∀ r, convert_tcx_to_gpx c ≠ .ok r) ∧
    (∀ tps, c.doc = .trackpoints tps → convert_tcx_to_gpx c = assemble tps) := by
  constructor
  · intro m hm
    constructor
    · rw [convert_tcx_to_gpx, hm]
    · intro r hr
      rw [convert_tcx_to_gpx, hm] at hr
      cases hr
  · intro tps htps
    rw [convert_tcx_to_gpx, htps]

theorem parse_failure_wrapped_message_witness :
    convert_tcx_to_gpx badContent = .error (.parseError ("Unable to parse TCX data. Error: "
      ++ "no element found: line 1, column 4" ++ ". Data starts with: "
      ++ badContent.text.take 100)) :=
  ((parse_failure_wrapped_message badContent).1 "no element found: line 1, column 4" rfl).1

/-- C7: when the document's timestamps are in ascending order (the
assumed source order) and both timestamps were set (some record bore a
time field), the returned duration is non-negative. -/
theorem duration_nonneg_of_sorted (tps : List TrackpointRec) (r : ConvResult)
    (h : assemble tps = .ok r)
    (hsorted : (docTimes tps).Pairwise (· ≤ ·))
    (hset : docTimes tps ≠ []) :
    0 ≤ r.duration := by
  obtain ⟨hwf, hne, hr⟩ := assemble_ok tps r h
  subst hr
  show (0 : Int) ≤ durOf (updStart none (docTimes tps)) (updEnd none (docTimes tps))
  rw [updStart_none_eq_head, updEnd_none_eq_getLast _ hset]
  cases hh : (docTimes tps).head? with
  | none =>
    rw [durOf_none_fst]
  | some s =>
    cases hl : (docTimes tps).getLast? with
    | none =>
      rw [durOf_none_snd]
    | some e =>
      have hle := head_le_getLast_of_sorted _ hsorted s e hh hl
      rw [durOf_some_some]
      omega

theorem duration_nonneg_of_sorted_witness :
    0 ≤ (mkResult tpsA).duration :=
  duration_nonneg_of_sorted tpsA (mkResult tpsA) rfl (by decide) (by decide)

/-- C8: the point accessor flattens every point of every segment of every
track into one ordered sequence of (latitude, longitude) pairs,
preserving track then segment then point order; it is a total function
and the empty container yields the empty sequence. -/
theorem get_points_flattens (g : GPX) :
    get_points g = (g.tracks.map (fun track => (track.segments.map (fun seg =>
      seg.points.map (fun p => (p.latitude, p.longitude)))).flatten)).flatten ∧
    get_points { tracks := [] } = [] :=
  ⟨get_points_eq_flatten g, rfl⟩

/-- C9: a record carrying exactly one of the two position children
contributes no point and raises no error — whatever its text, since no
parse is attempted — while its time and heart-rate fields are still
extracted and the loop proceeds. -/
theorem single_position_child (st : LoopState) (tp : TrackpointRec)
    (hpos : (tp.lat.isSome ∧ tp.lon = none) ∨ (tp.lat = none ∧ tp.lon.isSome))
    (ht : timeFailure tp = false) (hh : hrFailure tp = false) :
    processTrackpoint st tp = .ok
      { points := st.points,
        heart_rates := st.heart_rates ++ hrContrib tp,
        start_time := updStart st.start_time (timeContrib tp),
        end_time := updEnd st.end_time (timeContrib tp) } := by
  have hpf : posFailure tp = false := by
    rcases hpos with ⟨h1, h2⟩ | ⟨h1, h2⟩
    · obtain ⟨la, hla⟩ := Option.isSome_iff_exists.mp h1
      cases la <;> simp [posFailure, hla, h2]
    · simp [posFailure, h1]
  have hpc : posContrib tp = [] := by
    rcases hpos with ⟨h1, h2⟩ | ⟨h1, h2⟩
    · obtain ⟨la, hla⟩ := Option.isSome_iff_exists.mp h1
      cases la <;> simp [posContrib, hla, h2]
    · simp [posContrib, h1]
  have hwf : hasAttemptedFailure tp = false := by
    simp [hasAttemptedFailure, ht, hpf, hh]
  rw [processTrackpoint_wf st tp hwf, hpc, List.append_nil]

theorem single_position_child_witness :
    processTrackpoint initState tpD = .ok
      { points := initState.points,
        heart_rates := initState.heart_rates ++ hrContrib tpD,
        start_time := updStart initState.start_time (timeContrib tpD),
        end_time := updEnd initState.end_time (timeContrib tpD) } :=
  single_position_child initState tpD (Or.inl ⟨by decide, by decide⟩)
    (by decide) (by decide)

/-- C10: a well-formed input with at least one valid position and no time
field on any record converts successfully, returning an absent start
time and a zero duration. -/
theorem no_time_none_start_zero_duration (tps : List TrackpointRec)
    (h1 : ∀ tp ∈ tps, hasAttemptedFailure tp = false)
    (h2 : ∃ tp ∈ tps, hasValidPosition tp = true)
    (h3 : ∀ tp ∈ tps, tp.time = none) :
    ∃ r, assemble tps = .ok r ∧ r.start_time = none ∧ r.duration = 0 := by
  have hne := docPoints_ne_nil tps h2
  refine ⟨mkResult tps, assemble_wf_pos tps h1 hne, ?_, ?_⟩
  · show updStart none (docTimes tps) = none
    rw [docTimes_nil_of_none tps h3]
    rfl
  · show durOf (updStart none (docTimes tps)) (updEnd none (docTimes tps)) = 0
    rw [docTimes_nil_of_none tps h3]
    rfl

theorem no_time_none_start_zero_duration_witness :
    ∃ r, assemble tpsE = .ok r ∧ r.start_time = none ∧ r.duration = 0 :=
  no_time_none_start_zero_duration tpsE (by decide)
    ⟨{ time := none, lat := some (.value 1), lon := some (.value 2), hr := none },
      by decide, by decide⟩ (by decide)
